import Mathlib

/-!
# Verification of the chess-bot inference-and-decision pipeline

Shallow embedding of the core of `main.py` (with `chess/chess_analyzer.py`
sharing the same `find_moved_pieces`, `get_fen_from_board` and
`initialize_stockfish` logic), together with theorems settling the frozen
claims about the natural-language specification.

Board snapshots are Python dicts `{position -> piece}`; Python dicts iterate
in insertion order with unique keys, so they are embedded as association
lists `List (String × String)` whose key list is `Nodup`.  Engine
evaluations are Python floats obtained as `centipawns / 100`; they are
embedded as rationals.
-/

namespace ChessBot

/-- A board snapshot: association list from position strings (algebraic
`"e2"` or numeric `"52"`) to piece codes (`"wp"`, `"bk"`, ...), embedding a
Python dict in iteration order. -/
abbrev BState := List (String × String)

/-- Python `pos in d` / `d[pos]` on the embedded dict: first value bound to
the key, if any. -/
def lookupB : BState → String → Option String
  | [], _ => none
  | (k, v) :: rest, key => if k = key then some v else lookupB rest key

/-- The keys of a snapshot, in iteration order. -/
def keysB (s : BState) : List String := s.map Prod.fst

/-- A genuine Python dict has no duplicate keys. -/
abbrev NodupKeys (s : BState) : Prop := (keysB s).Nodup

/-- Dict `appeared` of `find_moved_pieces` (main.py:486):
entries of the new state whose position is absent from the old state or
bound to a different piece there. -/
def appeared (old_state new_state : BState) : BState :=
  new_state.filter (fun e => decide (lookupB old_state e.1 ≠ some e.2))

/-- Dict `disappeared` of `find_moved_pieces` (main.py:490):
entries of the old state whose position is absent from the new state or
bound to a different piece there. -/
def disappeared (old_state new_state : BState) : BState :=
  old_state.filter (fun e => decide (lookupB new_state e.1 ≠ some e.2))

/-- Inner loop of `find_moved_pieces` (main.py:496-501): scan `appeared` in
dict order for the first entry carrying the piece, and remove it
(`appeared.pop(new_pos)` followed by `break`).  Returns the matched
position and the remaining `appeared` dict. -/
def findMatch : BState → String → Option (String × BState)
  | [], _ => none
  | (p, pc) :: rest, piece =>
    if pc = piece then some (p, rest)
    else
      match findMatch rest piece with
      | some (q, rest') => some (q, (p, pc) :: rest')
      | none => none

/-- Outer loop of `find_moved_pieces` (main.py:495-501): for each
`disappeared` entry in dict order, match it against the current `appeared`
dict, consuming the matched entry. -/
def matchLoop : BState → BState → List (String × String × String)
  | [], _ => []
  | (old_pos, old_piece) :: rest, ap =>
    match findMatch ap old_piece with
    | some (new_pos, ap') => (old_pos, new_pos, old_piece) :: matchLoop rest ap'
    | none => matchLoop rest ap

/-- Function `find_moved_pieces(old_state, new_state)` (main.py:483-503,
chess_analyzer.py:317-337): diff two snapshots into a list of
`(from, to, piece)` move candidates. -/
def find_moved_pieces (old_state new_state : BState) : List (String × String × String) :=
  matchLoop (disappeared old_state new_state) (appeared old_state new_state)

/-- Python `str.lower` on one character (ASCII model, as in `Char.toLower`). -/
def pyLower (c : Char) : Char := c.toLower

/-- Zero points of the Unicode decimal digits (category `Nd`), as carried
by CPython 3.11 (Unicode 14.0): `int` on a one-character string succeeds
exactly on the 660 characters `z + v` for `z` in this list and value
`v` in `0`-`9`.  The runs are all aligned: the digit with value `v` sits
at offset `v` from its zero point. -/
def decimal_digit_zeros : List Nat :=
  [0x30, 0x660, 0x6F0, 0x7C0, 0x966, 0x9E6, 0xA66, 0xAE6, 0xB66, 0xBE6,
   0xC66, 0xCE6, 0xD66, 0xDE6, 0xE50, 0xED0, 0xF20, 0x1040, 0x1090, 0x17E0,
   0x1810, 0x1946, 0x19D0, 0x1A80, 0x1A90, 0x1B50, 0x1BB0, 0x1C40, 0x1C50,
   0xA620, 0xA8D0, 0xA900, 0xA9D0, 0xA9F0, 0xAA50, 0xABF0, 0xFF10, 0x104A0,
   0x10D30, 0x11066, 0x110F0, 0x11136, 0x111D0, 0x112F0, 0x11450, 0x114D0,
   0x11650, 0x116C0, 0x11730, 0x118E0, 0x11950, 0x11C50, 0x11D50, 0x11DA0,
   0x16A60, 0x16AC0, 0x16B50, 0x1D7CE, 0x1D7D8, 0x1D7E2, 0x1D7EC, 0x1D7F6,
   0x1E140, 0x1E2F0, 0x1E950, 0x1FBF0]

/-- Python `int(c)` on a one-character string: it succeeds exactly on the
Unicode decimal digits of any script (`'2'`, `'٢'`, `'２'`, ...), yielding
the digit value; `none` embeds the `ValueError` raised otherwise, which
every caller catches.  Python `str.isdigit` additionally accepts
`Numeric_Type=Digit` characters (superscripts such as `'²'`, Ethiopic
digits, ...) on which `int` still raises `ValueError`; since in the source
every `isdigit` guard is followed by `int` inside a `try` returning
`None`, the merged decimal lookup used here has the same outcome as the
guard-then-convert pair on every character. -/
def pyDigitVal (c : Char) : Option Int :=
  match decimal_digit_zeros.find? (fun z => decide (z ≤ c.toNat ∧ c.toNat ≤ z + 9)) with
  | some z => some ((c.toNat : Int) - (z : Int))
  | none => none

/-- Map `piece_map` with its `.get` default (main.py:511-514): FEN letter
of a piece code, empty string for unknown codes. -/
def piece_map : String → String
  | "wp" => "P" | "wn" => "N" | "wb" => "B" | "wr" => "R" | "wq" => "Q" | "wk" => "K"
  | "bp" => "p" | "bn" => "n" | "bb" => "b" | "br" => "r" | "bq" => "q" | "bk" => "k"
  | _ => ""

/-- Position-key parsing of the populate loop (main.py:538-546): a
two-character key is read as algebraic (`"e2"`) when its first character
is a letter, else as numeric (`"52"`); `none` embeds a skipped entry
(wrong length, or a caught `ValueError`). -/
def parse_cell (pos : String) : Option (Int × Int) :=
  match pos.data with
  | [c0, c1] =>
    if c0.isAlpha then
      match pyDigitVal c1 with
      | some d => some (((pyLower c0).toNat : Int) - 97, 8 - d)
      | none => none
    else
      match pyDigitVal c0, pyDigitVal c1 with
      | some d0, some d1 => some (d0 - 1, 8 - d1)
      | _, _ => none
  | _ => none

/-- Assignment `board[row][col] = v` on the list-of-lists grid. -/
def setCell (b : List (List String)) (row col : Nat) (v : String) : List (List String) :=
  b.set row ((b.getD row []).set col v)

/-- The populate loop of `get_fen_from_board` (main.py:535-551): each
snapshot entry whose key parses and lands in bounds writes its FEN letter
into the grid; everything else is skipped. -/
def place_pieces (b : List (List String)) (board_state : BState) : List (List String) :=
  board_state.foldl
    (fun acc e =>
      match parse_cell e.1 with
      | some (col, row) =>
        if 0 ≤ col ∧ col < 8 ∧ 0 ≤ row ∧ row < 8 then
          setCell acc row.toNat col.toNat (piece_map e.2)
        else acc
      | none => acc)
    b

/-- Run-length encoding of one rank of the grid (main.py:555-568). -/
def fen_row (cells : List String) : String :=
  let st := cells.foldl
    (fun (acc : String × Nat) cell =>
      if cell = "" then (acc.1, acc.2 + 1)
      else (acc.1 ++ (if 0 < acc.2 then toString acc.2 else "") ++ cell, 0))
    ("", 0)
  st.1 ++ (if 0 < st.2 then toString st.2 else "")

/-- White-king count of the validation step (main.py:522-527). -/
def king_count_w (board_state : BState) : Nat :=
  (board_state.filter (fun e => decide (e.2 = "wk"))).length

/-- Black-king count of the validation step (main.py:522-527). -/
def king_count_b (board_state : BState) : Nat :=
  (board_state.filter (fun e => decide (e.2 = "bk"))).length

/-- Function `get_fen_from_board(board_state)` (main.py:505-575), with the global
`current_turn` made an explicit argument; `none` embeds returning Python
`None` (empty snapshot, or king-count validation failure). -/
def get_fen_from_board (board_state : BState) (current_turn : String) : Option String :=
  if board_state = [] then none
  else if king_count_w board_state ≠ 1 ∨ king_count_b board_state ≠ 1 then none
  else
    let board := place_pieces (List.replicate 8 (List.replicate 8 "")) board_state
    let placement := String.intercalate "/" (board.map fen_row)
    let active_color := if current_turn = "white" then "w" else "b"
    some (placement ++ " " ++ active_color ++ " KQkq - 0 1")

/-- White-relative pawn evaluation of one analysis entry
(main.py:199-203): mate scores saturate to `±9.9`, otherwise
`centipawns / 100`. -/
def white_eval (mate : Option Int) (cp : Int) : ℚ :=
  match mate with
  | some m => if 0 < m then 99 / 10 else -(99 / 10)
  | none => (cp : ℚ) / 100

/-- Per-entry evaluation produced by `get_alternative_moves`
(main.py:196-212): the White-relative value, negated when the configured
side is black. -/
def entry_eval (current_side : String) (mate : Option Int) (cp : Int) : ℚ :=
  if current_side = "black" then -(white_eval mate cp) else white_eval mate cp

/-- Evaluated candidate list returned by `get_alternative_moves`
(main.py:186-214) from raw engine entries `(move, mate, centipawns)`. -/
def get_alternative_moves_evals (current_side : String)
    (raw : List (String × Option Int × Int)) : List (String × ℚ) :=
  raw.map (fun e => (e.1, entry_eval current_side e.2.1 e.2.2))

/-- The perspective adjustment at the top of `select_legit_move`
(main.py:108-112): negate every score when the configured side is black. -/
def perspective_adjust (current_side : String) (moves_with_eval : List (String × ℚ)) :
    List (String × ℚ) :=
  if current_side = "black" then moves_with_eval.map (fun p => (p.1, -p.2))
  else moves_with_eval

/-- The candidate list as it stands at the deficit filters of
`select_legit_move` when fed by `get_best_move` (main.py:716-729): the
engine entries pass through the conversion in `get_alternative_moves` and
then the perspective adjustment inside `select_legit_move`. -/
def moves_at_deficit_filter (current_side : String)
    (raw : List (String × Option Int × Int)) : List (String × ℚ) :=
  perspective_adjust current_side (get_alternative_moves_evals current_side raw)

/-- Function `select_legit_move(moves_with_eval, is_white)` (main.py:94-150).
The globals and random draws are explicit: `current_side`, the legit-mode
settings, the `random.random()` roll, and the index picked by
`random.choice` (any possible choice arises as `choice % length`).
The unused `is_white` parameter of the source is dropped. -/
def select_legit_move (moves_with_eval : List (String × ℚ)) (current_side : String)
    (enabled : Bool) (blunder_chance suboptimal_chance roll : ℚ) (choice : Nat) :
    Option String :=
  if moves_with_eval.length < 2 then moves_with_eval.head?.map Prod.fst
  else if enabled = false then some moves_with_eval.headI.1
  else
    let mwe := perspective_adjust current_side moves_with_eval
    let best_eval := mwe.headI.2
    if roll < blunder_chance then
      let blunder_candidates := mwe.tail.filter
        (fun p => decide (1 / 2 ≤ best_eval - p.2 ∧ best_eval - p.2 ≤ 3 / 2))
      if blunder_candidates = [] then some mwe.headI.1
      else some (blunder_candidates.getD (choice % blunder_candidates.length) default).1
    else if roll < blunder_chance + suboptimal_chance then
      let suboptimal_candidates := mwe.tail.filter
        (fun p => decide (1 / 10 ≤ best_eval - p.2 ∧ best_eval - p.2 ≤ 2 / 5))
      if suboptimal_candidates = [] then some mwe.headI.1
      else some (suboptimal_candidates.getD (choice % suboptimal_candidates.length) default).1
    else some mwe.headI.1

/-- The blunder band of `select_legit_move` (main.py:120-125) on a raw
candidate list: the non-rank-0 candidates whose deficit against the best
evaluation lies in `[0.5, 1.5]` pawns. -/
def blunder_band (moves_with_eval : List (String × ℚ)) : List (String × ℚ) :=
  moves_with_eval.tail.filter
    (fun p => decide (1 / 2 ≤ moves_with_eval.headI.2 - p.2 ∧
                      moves_with_eval.headI.2 - p.2 ≤ 3 / 2))

/-- Value `skill_level` computed by `initialize_stockfish` (main.py:276,
chess_analyzer.py:110): Python `int()` truncates toward zero, which is
`Int.tdiv`. -/
def skill_level (elo : Int) : Int :=
  max 0 (min 20 (Int.tdiv (elo - 800) 120))

/-- The strength mapping as the spec words it:
`clamp(0, 20, floor((targetElo - 800) / 120))`, floor division being
`Int.fdiv`. -/
def skill_level_spec (elo : Int) : Int :=
  max 0 (min 20 (Int.fdiv (elo - 800) 120))

/-- Body of `convert_algebraic_to_numeric` on the two characters of a
length-2 input (main.py:303-316): file letter (lowercased, checked in
`a`-`h`), rank digit (any Unicode decimal digit, value checked in
`1`-`8`), emitted as two ASCII digit characters (Python formats the `int`
values).  Two outcome-preserving simplifications against the source:
the `isdigit` guard and the later `int(alg[1])` are merged into one
decimal lookup (see `pyDigitVal`); and `isalpha` is modelled as ASCII
`Char.isAlpha`, which is exact here because no Unicode character other
than `A`-`H`/`a`-`h` has a `lower()` inside `'a'..'h'` (checked
exhaustively over all code points, the sole multi-character lowering
`İ → i̇` included), so every non-ASCII letter is rejected by the range
check in the source and by the guard here. -/
def convert_alg_chars (c0 c1 : Char) : Option String :=
  if c0.isAlpha then
    match pyDigitVal c1 with
    | some row =>
      if pyLower c0 < 'a' ∨ 'h' < pyLower c0 then none
      else if row < 1 ∨ 8 < row then none
      else some (String.mk
        [Char.ofNat (48 + (((pyLower c0).toNat : Int) - 97 + 1).toNat),
         Char.ofNat (48 + row.toNat)])
    | none => none
  else none

/-- Function `convert_algebraic_to_numeric(alg)` (main.py:301-318). -/
def convert_algebraic_to_numeric (alg : String) : Option String :=
  match alg.data with
  | [c0, c1] => convert_alg_chars c0 c1
  | _ => none

/-- Body of `convert_numeric_to_algebraic` on the two characters of a
length-2 input (main.py:322-333): both characters may be Unicode decimal
digits of any script; output is an ASCII letter and ASCII digit (Python
formats `chr(ord('a')+col-1)` and the `int` value).  The `num.isdigit()`
guard and the two `int` calls are merged into two decimal lookups, which
is outcome-identical (see `pyDigitVal`): a `Numeric_Type=Digit`
non-decimal character passes the guard but makes `int` raise, reaching
the same `None` through the caught `ValueError`. -/
def convert_num_chars (c0 c1 : Char) : Option String :=
  match pyDigitVal c0, pyDigitVal c1 with
  | some col, some row =>
    if col < 1 ∨ 8 < col ∨ row < 1 ∨ 8 < row then none
    else some (String.mk [Char.ofNat (97 + col.toNat - 1), Char.ofNat (48 + row.toNat)])
  | _, _ => none

/-- Function `convert_numeric_to_algebraic(num)` (main.py:320-335). -/
def convert_numeric_to_algebraic (num : String) : Option String :=
  match num.data with
  | [c0, c1] => convert_num_chars c0 c1
  | _ => none

/-- The character pairs `convert_alg_chars` accepts: a letter whose
lowercase lies in `a`-`h` (so `a`-`h` and their uppercase forms), then a
Unicode decimal digit with value `1`-`8` (of any script). -/
def acceptedAlgChars (c0 c1 : Char) : Bool :=
  c0.isAlpha &&
    (match pyDigitVal c1 with
     | some row =>
       !(decide (pyLower c0 < 'a' ∨ 'h' < pyLower c0)) && !(decide (row < 1 ∨ 8 < row))
     | none => false)

/-- The inputs `convert_algebraic_to_numeric` accepts. -/
def acceptedAlg (s : String) : Bool :=
  match s.data with
  | [c0, c1] => acceptedAlgChars c0 c1
  | _ => false

/-- The character pairs `convert_num_chars` accepts: two Unicode decimal
digits (of any script), each with value `1`-`8`. -/
def acceptedNumChars (c0 c1 : Char) : Bool :=
  match pyDigitVal c0, pyDigitVal c1 with
  | some col, some row => !(decide (col < 1 ∨ 8 < col ∨ row < 1 ∨ 8 < row))
  | _, _ => false

/-- The inputs `convert_numeric_to_algebraic` accepts. -/
def acceptedNum (s : String) : Bool :=
  match s.data with
  | [c0, c1] => acceptedNumChars c0 c1
  | _ => false

/-- Counter state of the monitoring loop in `main` (main.py:1200-1204 and
the module-global `crash_count`), instrumented with counts of the recovery
actions taken (`driver.refresh()` attempts in the catch-all handler, and
`driver.get(...)` full reloads). -/
structure LoopState where
  crash_count : Nat
  consecutive_errors : Nat
  soft_recoveries : Nat
  hard_recoveries : Nat
  deriving DecidableEq, Repr

/-- Outcome of one iteration of the monitoring loop, as classified by the
handlers of main.py:1208-1280.  `unknownFault` is the catch-all
`except Exception` branch (main.py:1251-1280); its flags record whether the
attempted `driver.refresh()` and `driver.get(...)` calls succeed. -/
inductive CycleOutcome where
  | ok
  | unknownFault (refresh_ok : Bool) (reopen_ok : Bool)
  deriving DecidableEq, Repr

/-- One step of the fault-recovery loop (main.py:1208-1280): a successful
cycle resets both counters (main.py:913 and main.py:1213); the catch-all
handler increments `crash_count`, and at `crash_count >= max_crashes = 5`
attempts a soft recovery (`driver.refresh()`), resetting `crash_count` on
success; only when that refresh itself fails and
`crash_count >= max_crashes + 2` does it attempt the hard recovery
(reopening the chess.com page), resetting `crash_count` on success. -/
def loop_step (s : LoopState) (e : CycleOutcome) : LoopState :=
  match e with
  | .ok => { s with crash_count := 0, consecutive_errors := 0 }
  | .unknownFault refresh_ok reopen_ok =>
    let s1 := { s with crash_count := s.crash_count + 1 }
    if 5 ≤ s1.crash_count then
      let s2 := { s1 with soft_recoveries := s1.soft_recoveries + 1 }
      if refresh_ok then { s2 with crash_count := 0 }
      else if 5 + 2 ≤ s2.crash_count then
        let s3 := { s2 with hard_recoveries := s2.hard_recoveries + 1 }
        if reopen_ok then { s3 with crash_count := 0 } else s3
      else s2
    else s1

/-- Run the fault-recovery loop over a sequence of cycle outcomes. -/
def run_loop (s : LoopState) (es : List CycleOutcome) : LoopState :=
  es.foldl loop_step s

/-- The loop state with all counters at zero (main.py:1095, 1201-1202). -/
def init_loop : LoopState := ⟨0, 0, 0, 0⟩

/-- Guard chain of `analyze_and_display_best_move` (main.py:761-801):
analysis proceeds to the engine only when analysis is enabled, an engine
handle exists, and `get_fen_from_board` produced a position string (the
source checks the first two and recomputes the FEN twice, with the same
outcome). -/
def analysis_reached (enabled has_engine : Bool) (board_state : BState)
    (current_turn : String) : Bool :=
  if enabled = false then false
  else if has_engine = false then false
  else
    match get_fen_from_board board_state current_turn with
    | none => false
    | some _ => true

/-- King-count validation failure makes `get_fen_from_board` return `None`. -/
theorem fen_none_of_bad_kings (bs : BState) (turn : String)
    (h : king_count_w bs ≠ 1 ∨ king_count_b bs ≠ 1) :
    get_fen_from_board bs turn = none := by
  by_cases hbs : bs = []
  · simp [get_fen_from_board, hbs]
  · unfold get_fen_from_board
    rw [if_neg hbs, if_pos h]

/-- Without a synthesized FEN, the analysis guard chain stops. -/
theorem analysis_reached_eq_false (enabled has_engine : Bool) (bs : BState)
    (turn : String) (h : get_fen_from_board bs turn = none) :
    analysis_reached enabled has_engine bs turn = false := by
  unfold analysis_reached
  rw [h]
  split <;> [rfl; skip]
  split <;> rfl

/-- The perspective adjustment is the identity for the white side. -/
theorem perspective_adjust_white (l : List (String × ℚ)) :
    perspective_adjust "white" l = l := by
  unfold perspective_adjust
  rw [if_neg (by decide)]

/-- Any element `random.choice` can pick from a non-empty list is in it. -/
theorem getD_mod_mem {α : Type} [Inhabited α] (l : List α) (h : l ≠ []) (k : Nat) :
    l.getD (k % l.length) default ∈ l := by
  have hlen : 0 < l.length := List.length_pos.mpr h
  have hk : k % l.length < l.length := Nat.mod_lt _ hlen
  rw [List.getD_eq_getElem?_getD, List.getElem?_eq_getElem hk]
  exact List.getElem_mem hk

/-- On a dict with unique keys, membership determines the lookup. -/
theorem lookupB_eq_some_of_mem {l : BState} {k v : String}
    (hnd : NodupKeys l) (hm : (k, v) ∈ l) : lookupB l k = some v := by
  induction l with
  | nil => cases hm
  | cons a rest ih =>
    obtain ⟨a1, a2⟩ := a
    simp only [NodupKeys, keysB, List.map_cons, List.nodup_cons] at hnd
    obtain ⟨ha, hnd'⟩ := hnd
    rcases List.mem_cons.mp hm with h | h
    · cases h
      simp [lookupB]
    · have hak : a1 ≠ k := by
        intro he
        exact ha (he ▸ List.mem_map.mpr ⟨(k, v), h, rfl⟩)
      simp only [lookupB]
      rw [if_neg hak]
      exact ih hnd' h

/-- A successful lookup is a membership. -/
theorem mem_of_lookupB_eq_some {l : BState} {k v : String}
    (h : lookupB l k = some v) : (k, v) ∈ l := by
  induction l with
  | nil => simp [lookupB] at h
  | cons a rest ih =>
    obtain ⟨a1, a2⟩ := a
    simp only [lookupB] at h
    by_cases he : a1 = k
    · rw [if_pos he] at h
      obtain rfl := Option.some.inj h
      subst he
      exact List.mem_cons_self _ _
    · rw [if_neg he] at h
      exact List.mem_cons_of_mem _ (ih h)

/-- A filter over a unique-key dict keeping exactly one entry is that
singleton. -/
theorem filter_eq_singleton_of {l : BState} {P : String × String → Bool}
    {t pc : String} (hnd : NodupKeys l) (hmem : (t, pc) ∈ l)
    (hP : P (t, pc) = true) (hother : ∀ e ∈ l, e.1 ≠ t → P e = false) :
    l.filter P = [(t, pc)] := by
  induction l with
  | nil => cases hmem
  | cons a rest ih =>
    obtain ⟨a1, a2⟩ := a
    simp only [NodupKeys, keysB, List.map_cons, List.nodup_cons] at hnd
    obtain ⟨ha, hnd'⟩ := hnd
    rcases List.mem_cons.mp hmem with h | h
    · cases h
      rw [List.filter_cons, if_pos (by simp [hP])]
      have hrest : rest.filter P = [] := by
        rw [List.filter_eq_nil_iff]
        intro e he
        have hnet : e.1 ≠ t := by
          intro h'
          exact ha (h' ▸ List.mem_map.mpr ⟨e, he, rfl⟩)
        simp [hother e (List.mem_cons_of_mem _ he) hnet]
      rw [hrest]
    · have ht : t ∈ rest.map Prod.fst := List.mem_map.mpr ⟨(t, pc), h, rfl⟩
      have ha1t : a1 ≠ t := fun h' => ha (h' ▸ ht)
      have hPa : P (a1, a2) = false :=
        hother (a1, a2) (List.mem_cons_self _ _) ha1t
      rw [List.filter_cons, if_neg (by simp [hPa])]
      exact ih hnd' h (fun e he h' => hother e (List.mem_cons_of_mem _ he) h')

/-- Under the single-move hypotheses the `appeared` dict is exactly the
newly occupied square. -/
theorem appeared_singleton {old_state new_state : BState} {f t pc : String}
    (hnew : NodupKeys new_state)
    (hnf : lookupB new_state f = none) (hnt : lookupB new_state t = some pc)
    (hot : lookupB old_state t = none)
    (hsame : ∀ s, s ≠ f → s ≠ t → lookupB old_state s = lookupB new_state s) :
    appeared old_state new_state = [(t, pc)] := by
  apply filter_eq_singleton_of hnew (mem_of_lookupB_eq_some hnt)
  · simp [hot]
  · intro e he hne
    have h1 : lookupB new_state e.1 = some e.2 := lookupB_eq_some_of_mem hnew he
    have hef : e.1 ≠ f := by
      intro h'
      rw [h', hnf] at h1
      cases h1
    have h2 := hsame e.1 hef hne
    simp [h2, h1]

/-- Under the single-move hypotheses the `disappeared` dict is exactly the
vacated square. -/
theorem disappeared_singleton {old_state new_state : BState} {f t pc : String}
    (hold : NodupKeys old_state)
    (hof : lookupB old_state f = some pc) (hot : lookupB old_state t = none)
    (hnf : lookupB new_state f = none)
    (hsame : ∀ s, s ≠ f → s ≠ t → lookupB old_state s = lookupB new_state s) :
    disappeared old_state new_state = [(f, pc)] := by
  apply filter_eq_singleton_of hold (mem_of_lookupB_eq_some hof)
  · simp [hnf]
  · intro e he hne
    have h1 : lookupB old_state e.1 = some e.2 := lookupB_eq_some_of_mem hold he
    have het : e.1 ≠ t := by
      intro h'
      rw [h', hot] at h1
      cases h1
    have h2 := hsame e.1 hne het
    simp [← h2, h1]

/-- A successful `findMatch` splits the `appeared` dict around the
matched entry and removes exactly that entry. -/
theorem findMatch_decomp {ap : BState} {piece q : String} {ap' : BState}
    (h : findMatch ap piece = some (q, ap')) :
    ∃ l1 l2, ap = l1 ++ (q, piece) :: l2 ∧ ap' = l1 ++ l2 := by
  induction ap generalizing q ap' with
  | nil => simp [findMatch] at h
  | cons a rest ih =>
    obtain ⟨p, pc⟩ := a
    simp only [findMatch] at h
    by_cases hpc : pc = piece
    · rw [if_pos hpc] at h
      injection Option.some.inj h with h1 h2
      subst hpc h1 h2
      exact ⟨[], rest, rfl, rfl⟩
    · rw [if_neg hpc] at h
      cases hm : findMatch rest piece with
      | none => rw [hm] at h; cases h
      | some pr =>
        obtain ⟨q0, rest'⟩ := pr
        rw [hm] at h
        injection Option.some.inj h with h1 h2
        subst h1 h2
        obtain ⟨l1, l2, he1, he2⟩ := ih hm
        exact ⟨(p, pc) :: l1, l2, by rw [he1]; rfl, by rw [he2]; rfl⟩

/-- Lemma: `findMatch` removes exactly one entry. -/
theorem findMatch_length {ap : BState} {piece q : String} {ap' : BState}
    (h : findMatch ap piece = some (q, ap')) : ap'.length + 1 = ap.length := by
  obtain ⟨l1, l2, rfl, rfl⟩ := findMatch_decomp h
  simp only [List.length_append, List.length_cons]
  omega

/-- The keys surviving `findMatch` come from the input, and the matched
key is an input key. -/
theorem findMatch_subset {ap : BState} {piece q : String} {ap' : BState}
    (h : findMatch ap piece = some (q, ap')) :
    keysB ap' ⊆ keysB ap ∧ q ∈ keysB ap := by
  obtain ⟨l1, l2, rfl, rfl⟩ := findMatch_decomp h
  simp only [keysB, List.map_append, List.map_cons]
  constructor
  · intro x hx
    rcases List.mem_append.mp hx with hx | hx
    · exact List.mem_append.mpr (Or.inl hx)
    · exact List.mem_append.mpr (Or.inr (List.mem_cons_of_mem _ hx))
  · exact List.mem_append.mpr (Or.inr (List.mem_cons_self _ _))

/-- Lemma: `findMatch` on a unique-key dict keeps keys unique and removes the
matched key entirely. -/
theorem findMatch_nodup {ap : BState} {piece q : String} {ap' : BState}
    (hnd : NodupKeys ap) (h : findMatch ap piece = some (q, ap')) :
    NodupKeys ap' ∧ q ∉ keysB ap' := by
  obtain ⟨l1, l2, rfl, rfl⟩ := findMatch_decomp h
  simp only [NodupKeys, keysB, List.map_append, List.map_cons] at *
  rw [List.nodup_append] at hnd
  obtain ⟨h1, h2, hdisj⟩ := hnd
  rw [List.nodup_cons] at h2
  obtain ⟨hq2, h2'⟩ := h2
  have hq1 : q ∉ l1.map Prod.fst := fun hq =>
    hdisj hq (List.mem_cons_self _ _)
  constructor
  · rw [List.nodup_append]
    exact ⟨h1, h2', fun a ha ha' => hdisj ha (List.mem_cons_of_mem _ ha')⟩
  · intro hq
    rcases List.mem_append.mp hq with hq | hq
    · exact hq1 hq
    · exact hq2 hq

/-- The number of emitted candidates is at most the number of
`disappeared` entries. -/
theorem matchLoop_length_le_left (dis ap : BState) :
    (matchLoop dis ap).length ≤ dis.length := by
  induction dis generalizing ap with
  | nil => simp [matchLoop]
  | cons d rest ih =>
    obtain ⟨dp, dpc⟩ := d
    simp only [matchLoop]
    cases hm : findMatch ap dpc with
    | none => exact le_trans (ih ap) (by simp)
    | some pr =>
      obtain ⟨q, ap'⟩ := pr
      simpa using Nat.succ_le_succ (ih ap')

/-- The number of emitted candidates is at most the number of `appeared`
entries: each match consumes one. -/
theorem matchLoop_length_le_right (dis ap : BState) :
    (matchLoop dis ap).length ≤ ap.length := by
  induction dis generalizing ap with
  | nil => simp [matchLoop]
  | cons d rest ih =>
    obtain ⟨dp, dpc⟩ := d
    simp only [matchLoop]
    cases hm : findMatch ap dpc with
    | none => exact ih ap
    | some pr =>
      obtain ⟨q, ap'⟩ := pr
      have hl := findMatch_length hm
      have := ih ap'
      simp only [List.length_cons]
      omega

/-- Every emitted destination is a key of the `appeared` dict. -/
theorem matchLoop_dest_mem {dis ap : BState} :
    ∀ m ∈ matchLoop dis ap, m.2.1 ∈ keysB ap := by
  induction dis generalizing ap with
  | nil => intro m hm; simp [matchLoop] at hm
  | cons d rest ih =>
    obtain ⟨dp, dpc⟩ := d
    intro m hm
    simp only [matchLoop] at hm
    cases hmatch : findMatch ap dpc with
    | none =>
      rw [hmatch] at hm
      exact ih m hm
    | some pr =>
      obtain ⟨q, ap'⟩ := pr
      rw [hmatch] at hm
      rcases List.mem_cons.mp hm with rfl | hm'
      · exact (findMatch_subset hmatch).2
      · exact (findMatch_subset hmatch).1 (ih m hm')

/-- With unique `appeared` keys, no two emitted candidates share a
destination. -/
theorem matchLoop_dests_nodup {dis ap : BState} (hnd : NodupKeys ap) :
    ((matchLoop dis ap).map (fun m => m.2.1)).Nodup := by
  induction dis generalizing ap with
  | nil => simp [matchLoop]
  | cons d rest ih =>
    obtain ⟨dp, dpc⟩ := d
    simp only [matchLoop]
    cases hmatch : findMatch ap dpc with
    | none => exact ih hnd
    | some pr =>
      obtain ⟨q, ap'⟩ := pr
      simp only [List.map_cons, List.nodup_cons]
      obtain ⟨hnd', hq⟩ := findMatch_nodup hnd hmatch
      refine ⟨fun hmem => ?_, ih hnd'⟩
      obtain ⟨m, hm, hqe⟩ := List.mem_map.mp hmem
      exact hq (hqe ▸ matchLoop_dest_mem m hm)

/-- The emitted origins are a subsequence of the `disappeared` keys. -/
theorem matchLoop_origins_sublist (dis ap : BState) :
    List.Sublist ((matchLoop dis ap).map (fun m => m.1)) (keysB dis) := by
  induction dis generalizing ap with
  | nil => simp [matchLoop, keysB]
  | cons d rest ih =>
    obtain ⟨dp, dpc⟩ := d
    simp only [matchLoop, keysB, List.map_cons]
    cases hmatch : findMatch ap dpc with
    | none => exact (ih ap).trans (List.sublist_cons_self _ _)
    | some pr =>
      obtain ⟨q, ap'⟩ := pr
      simpa using List.Sublist.cons₂ dp (ih ap')

/-- Filtering a unique-key dict keeps keys unique. -/
theorem nodupKeys_filter {l : BState} (P : String × String → Bool)
    (h : NodupKeys l) : NodupKeys (l.filter P) :=
  h.sublist (List.Sublist.map Prod.fst (List.filter_sublist l))

/-- Character pairs outside the accepted set are rejected by
`convert_alg_chars`. -/
theorem alg_chars_none_of_not_accepted (c0 c1 : Char)
    (h : acceptedAlgChars c0 c1 = false) : convert_alg_chars c0 c1 = none := by
  unfold convert_alg_chars
  unfold acceptedAlgChars at h
  by_cases h1 : (c0.isAlpha = true)
  · rw [if_pos h1]
    cases hd : pyDigitVal c1 with
    | none => rfl
    | some row =>
      rw [hd] at h
      by_cases h2 : (pyLower c0 < 'a' ∨ 'h' < pyLower c0)
      · simp only [if_pos h2]
      · simp only [if_neg h2]
        by_cases h3 : (row < 1 ∨ 8 < row)
        · simp only [if_pos h3]
        · exfalso
          simp [h1, h2, h3] at h
  · rw [if_neg h1]

/-- Inputs outside the accepted shape are rejected by
`convert_algebraic_to_numeric`. -/
theorem a2n_none_of_not_accepted (s : String) (h : acceptedAlg s = false) :
    convert_algebraic_to_numeric s = none := by
  unfold convert_algebraic_to_numeric
  unfold acceptedAlg at h
  rcases hs : s.data with _ | ⟨c0, _ | ⟨c1, _ | ⟨c2, cs⟩⟩⟩ <;> (rw [hs] at h; try rfl)
  exact alg_chars_none_of_not_accepted c0 c1 h

/-- Character pairs outside the accepted set are rejected by
`convert_num_chars`. -/
theorem num_chars_none_of_not_accepted (c0 c1 : Char)
    (h : acceptedNumChars c0 c1 = false) : convert_num_chars c0 c1 = none := by
  unfold convert_num_chars
  unfold acceptedNumChars at h
  cases hd0 : pyDigitVal c0 with
  | none => rfl
  | some col =>
    cases hd1 : pyDigitVal c1 with
    | none => rfl
    | some row =>
      rw [hd0, hd1] at h
      by_cases h2 : (col < 1 ∨ 8 < col ∨ row < 1 ∨ 8 < row)
      · simp only [if_pos h2]
      · exfalso
        simp [h2] at h

/-- Inputs outside the accepted shape are rejected by
`convert_numeric_to_algebraic`. -/
theorem n2a_none_of_not_accepted (s : String) (h : acceptedNum s = false) :
    convert_numeric_to_algebraic s = none := by
  unfold convert_numeric_to_algebraic
  unfold acceptedNum at h
  rcases hs : s.data with _ | ⟨c0, _ | ⟨c1, _ | ⟨c2, cs⟩⟩⟩ <;> (rw [hs] at h; try rfl)
  exact num_chars_none_of_not_accepted c0 c1 h

/-! ## Claim theorems -/

/-- C10: for every pair of unique-key board states, the candidates of
`find_moved_pieces` have pairwise distinct origin squares and pairwise
distinct destination squares, and there are at most
`min |disappeared| |appeared|` of them. -/
theorem diff_candidate_invariants (old_state new_state : BState)
    (hold : NodupKeys old_state) (hnew : NodupKeys new_state) :
    ((find_moved_pieces old_state new_state).map (fun m => m.1)).Nodup ∧
    ((find_moved_pieces old_state new_state).map (fun m => m.2.1)).Nodup ∧
    (find_moved_pieces old_state new_state).length ≤
      min (disappeared old_state new_state).length
          (appeared old_state new_state).length := by
  have hd : NodupKeys (disappeared old_state new_state) :=
    nodupKeys_filter _ hold
  have ha : NodupKeys (appeared old_state new_state) :=
    nodupKeys_filter _ hnew
  exact ⟨hd.sublist (matchLoop_origins_sublist _ _),
    matchLoop_dests_nodup ha,
    le_min (matchLoop_length_le_left _ _) (matchLoop_length_le_right _ _)⟩

/-- Witness for C10 at a castling-like double move. -/
theorem diff_candidate_invariants_witness :
    (NodupKeys [("e1", "wk"), ("h1", "wr"), ("e8", "bk")] ∧
     NodupKeys [("g1", "wk"), ("f1", "wr"), ("e8", "bk")]) ∧
    (((find_moved_pieces [("e1", "wk"), ("h1", "wr"), ("e8", "bk")]
         [("g1", "wk"), ("f1", "wr"), ("e8", "bk")]).map (fun m => m.1)).Nodup ∧
     ((find_moved_pieces [("e1", "wk"), ("h1", "wr"), ("e8", "bk")]
         [("g1", "wk"), ("f1", "wr"), ("e8", "bk")]).map (fun m => m.2.1)).Nodup ∧
     (find_moved_pieces [("e1", "wk"), ("h1", "wr"), ("e8", "bk")]
         [("g1", "wk"), ("f1", "wr"), ("e8", "bk")]).length ≤
       min (disappeared [("e1", "wk"), ("h1", "wr"), ("e8", "bk")]
              [("g1", "wk"), ("f1", "wr"), ("e8", "bk")]).length
           (appeared [("e1", "wk"), ("h1", "wr"), ("e8", "bk")]
              [("g1", "wk"), ("f1", "wr"), ("e8", "bk")]).length) :=
  ⟨⟨by decide, by decide⟩,
   diff_candidate_invariants [("e1", "wk"), ("h1", "wr"), ("e8", "bk")]
     [("g1", "wk"), ("f1", "wr"), ("e8", "bk")] (by decide) (by decide)⟩

/-- C1: for two unique-key snapshots that differ by exactly one piece's
position — square `f` holds piece `pc` only in the old snapshot, square
`t` holds the same `pc` only in the new one, and every other square is
bound identically — `find_moved_pieces` returns exactly the candidate
`(f, t, pc)`. -/
theorem single_move_diff (old_state new_state : BState) (f t pc : String)
    (hold : NodupKeys old_state) (hnew : NodupKeys new_state)
    (hof : lookupB old_state f = some pc) (hnf : lookupB new_state f = none)
    (hnt : lookupB new_state t = some pc) (hot : lookupB old_state t = none)
    (hsame : ∀ s, s ≠ f → s ≠ t → lookupB old_state s = lookupB new_state s) :
    find_moved_pieces old_state new_state = [(f, t, pc)] := by
  unfold find_moved_pieces
  rw [disappeared_singleton hold hof hot hnf hsame,
      appeared_singleton hnew hnf hnt hot hsame]
  simp [matchLoop, findMatch]

/-- Witness for C1 at the concrete pawn push `d2`-`d4`. -/
theorem single_move_diff_witness :
    (∀ s : String, s ≠ "d2" → s ≠ "d4" →
       lookupB [("d2", "wp"), ("g1", "wk"), ("g8", "bk")] s
         = lookupB [("d4", "wp"), ("g1", "wk"), ("g8", "bk")] s) ∧
    find_moved_pieces [("d2", "wp"), ("g1", "wk"), ("g8", "bk")]
        [("d4", "wp"), ("g1", "wk"), ("g8", "bk")]
      = [("d2", "d4", "wp")] := by
  have hsame : ∀ s : String, s ≠ "d2" → s ≠ "d4" →
      lookupB [("d2", "wp"), ("g1", "wk"), ("g8", "bk")] s
        = lookupB [("d4", "wp"), ("g1", "wk"), ("g8", "bk")] s := by
    intro s h1 h2
    simp only [lookupB]
    rw [if_neg (show ¬("d2" = s) from fun h => h1 h.symm),
        if_neg (show ¬("d4" = s) from fun h => h2 h.symm)]
  exact ⟨hsame,
    single_move_diff _ _ "d2" "d4" "wp" (by decide) (by decide) (by decide)
      (by decide) (by decide) (by decide) hsame⟩

/-- C2: diffing snapshot A = `{e2: wp, e1: wk, e8: bk}` against
B = `{e4: wp, e1: wk, e8: bk}` yields exactly the candidate
`(e2, e4, wp)`, and synthesizing B with White to move produces the FEN
whose piece placement is `4k3/8/8/8/4P3/8/8/4K3` and active color `w`. -/
theorem pawn_push_scenario :
    find_moved_pieces [("e2", "wp"), ("e1", "wk"), ("e8", "bk")]
        [("e4", "wp"), ("e1", "wk"), ("e8", "bk")] = [("e2", "e4", "wp")] ∧
    get_fen_from_board [("e4", "wp"), ("e1", "wk"), ("e8", "bk")] "white"
      = some "4k3/8/8/8/4P3/8/8/4K3 w KQkq - 0 1" := by
  exact ⟨by decide, by decide⟩

/-- C3: a snapshot with other than exactly one king per color is rejected
by `get_fen_from_board` (it returns no position string), and consequently
the cycle never reaches engine analysis, whatever the enabled/engine
flags. -/
theorem invalid_king_count_rejected (bs : BState) (turn : String)
    (h : king_count_w bs ≠ 1 ∨ king_count_b bs ≠ 1) :
    get_fen_from_board bs turn = none ∧
    ∀ enabled has_engine : Bool,
      analysis_reached enabled has_engine bs turn = false := by
  refine ⟨fen_none_of_bad_kings bs turn h, fun enabled has_engine => ?_⟩
  exact analysis_reached_eq_false enabled has_engine bs turn
    (fen_none_of_bad_kings bs turn h)

/-- Witness for C3 at a snapshot with two white kings. -/
theorem invalid_king_count_rejected_witness :
    (king_count_w [("e1", "wk"), ("d1", "wk"), ("e8", "bk")] ≠ 1 ∨
     king_count_b [("e1", "wk"), ("d1", "wk"), ("e8", "bk")] ≠ 1) ∧
    (get_fen_from_board [("e1", "wk"), ("d1", "wk"), ("e8", "bk")] "white" = none ∧
     ∀ enabled has_engine : Bool,
       analysis_reached enabled has_engine
         [("e1", "wk"), ("d1", "wk"), ("e8", "bk")] "white" = false) :=
  ⟨Or.inl (by decide),
   invalid_king_count_rejected [("e1", "wk"), ("d1", "wk"), ("e8", "bk")] "white"
     (Or.inl (by decide))⟩

/-- C4 fails on the code: with the acting side black, the evaluations
reaching the deficit filters of `select_legit_move` are negated twice
(once by `get_alternative_moves`, main.py:206-207, and again by
`select_legit_move`, main.py:110-112), hence equal the engine's
White-relative scores, not those scores negated exactly once.  At the raw
engine entries `[(m0, cp -100), (m1, cp 0)]` the list at the filters is
`[(m0, -1), (m1, 0)]`, while negating the White-relative scores exactly
once would give `[(m0, 1), (m1, 0)]`. -/
theorem black_double_negation_at_filter :
    moves_at_deficit_filter "black" [("m0", none, -100), ("m1", none, 0)]
      = [("m0", -1), ("m1", 0)] ∧
    [("m0", -(white_eval none (-100))), ("m1", -(white_eval none 0))]
      = [("m0", (1 : ℚ)), ("m1", 0)] ∧
    (([("m0", (-1 : ℚ)), ("m1", 0)] : List (String × ℚ))
      ≠ [("m0", (1 : ℚ)), ("m1", 0)]) := by
  refine ⟨?_, ?_, ?_⟩
  · norm_num [moves_at_deficit_filter, get_alternative_moves_evals,
      perspective_adjust, entry_eval, white_eval]
  · norm_num [white_eval]
  · simp only [ne_eq, List.cons.injEq, Prod.mk.injEq]
    norm_num

/-- C5: with legit mode on, `blunderChance = 1`, `suboptimalChance = 0`
and at least two candidates — the evaluations being in the side-to-move's
perspective, i.e. the side for which the internal adjustment of the selector is
the identity — `select_legit_move` returns a member of the `[0.5, 1.5]`
deficit band whenever that band is non-empty, for every random draw
`roll < 1` and every choice; with the band empty it returns the rank-0
move. -/
theorem blunder_saturation (moves : List (String × ℚ)) (roll : ℚ) (choice : Nat)
    (h2 : 2 ≤ moves.length) (hroll : roll < 1) :
    (blunder_band moves ≠ [] →
      ∃ p ∈ blunder_band moves,
        select_legit_move moves "white" true 1 0 roll choice = some p.1) ∧
    (blunder_band moves = [] →
      select_legit_move moves "white" true 1 0 roll choice = some moves.headI.1) := by
  have hsel : select_legit_move moves "white" true 1 0 roll choice =
      if blunder_band moves = [] then some moves.headI.1
      else some ((blunder_band moves).getD
        (choice % (blunder_band moves).length) default).1 := by
    simp only [select_legit_move, perspective_adjust_white, blunder_band]
    rw [if_neg (by omega), if_neg (by decide), if_pos hroll]
  constructor
  · intro hne
    rw [hsel, if_neg hne]
    exact ⟨_, getD_mod_mem _ hne choice, rfl⟩
  · intro he
    rw [hsel, if_pos he]

/-- Witness for C5 at the list `[(a, 0), (b, -1)]`, whose blunder band is
`[(b, -1)]`. -/
theorem blunder_saturation_witness :
    (2 ≤ ([("a", (0 : ℚ)), ("b", -1)] : List (String × ℚ)).length) ∧ ((0 : ℚ) < 1) ∧
    ((blunder_band [("a", (0 : ℚ)), ("b", -1)] ≠ [] →
       ∃ p ∈ blunder_band [("a", (0 : ℚ)), ("b", -1)],
         select_legit_move [("a", (0 : ℚ)), ("b", -1)] "white" true 1 0 0 0 = some p.1) ∧
     (blunder_band [("a", (0 : ℚ)), ("b", -1)] = [] →
       select_legit_move [("a", (0 : ℚ)), ("b", -1)] "white" true 1 0 0 0
         = some ([("a", (0 : ℚ)), ("b", -1)] : List (String × ℚ)).headI.1)) :=
  ⟨by norm_num, by norm_num,
   blunder_saturation [("a", (0 : ℚ)), ("b", -1)] 0 0 (by norm_num) (by norm_num)⟩

/-- C6: the ELO-to-skill mapping of `initialize_stockfish` equals
`clamp(0, 20, floor((elo - 800) / 120))`, always lands in `[0, 20]`, and
takes the advertised boundary values. -/
theorem skill_level_mapping :
    (∀ elo : Int, skill_level elo = skill_level_spec elo ∧
       0 ≤ skill_level elo ∧ skill_level elo ≤ 20) ∧
    skill_level 800 = 0 ∧ skill_level 2000 = 10 ∧ skill_level 3200 = 20 ∧
    skill_level 0 = 0 ∧ skill_level 5000 = 20 := by
  refine ⟨fun elo => ⟨?_, le_max_left _ _, max_le (by norm_num) (min_le_left _ _)⟩,
    by decide, by decide, by decide, by decide, by decide⟩
  unfold skill_level skill_level_spec
  rcases le_or_lt 0 (elo - 800) with h | h
  · rw [Int.fdiv_eq_tdiv h (by norm_num)]
  · have ht : Int.tdiv (elo - 800) 120 ≤ 0 := by
      have hn := Int.tdiv_nonneg (a := -(elo - 800)) (b := 120) (by omega) (by norm_num)
      rw [Int.neg_tdiv] at hn
      omega
    have hf : Int.fdiv (elo - 800) 120 ≤ 0 :=
      le_of_lt (Int.fdiv_neg' h (by norm_num))
    rw [max_eq_left (le_trans (min_le_right _ _) ht),
        max_eq_left (le_trans (min_le_right _ _) hf)]

/-- C7 fails on the code: starting from zero counters, five consecutive
catch-all (`UnknownFault`) cycles do not trigger a hard recovery — at the
fifth crash the loop attempts the soft `driver.refresh()`
(main.py:1260-1266); the hard reload is reached only inside the refresh's
failure handler at `crash_count >= max_crashes + 2` (main.py:1271-1277). -/
theorem five_unknown_faults_no_hard_recovery :
    (run_loop init_loop
        (List.replicate 5 (CycleOutcome.unknownFault true true))).hard_recoveries ≠ 1 := by
  decide

/-- C7 amended: five consecutive `UnknownFault` classifications from zero
counters trigger exactly one soft-recovery action and no hard recovery,
after which both counters are zero; the hard reload fires (once) only when
the soft refresh keeps failing and the crash counter reaches 7. -/
theorem five_unknown_faults_soft_recovery :
    run_loop init_loop (List.replicate 5 (CycleOutcome.unknownFault true true))
      = { crash_count := 0, consecutive_errors := 0,
          soft_recoveries := 1, hard_recoveries := 0 } ∧
    run_loop init_loop (List.replicate 7 (CycleOutcome.unknownFault false true))
      = { crash_count := 0, consecutive_errors := 0,
          soft_recoveries := 3, hard_recoveries := 1 } := by
  exact ⟨by decide, by decide⟩

/-- C9 fails as stated: the uppercase input `"E2"` is not a
letter-file-`a`-`h` square, yet `convert_algebraic_to_numeric` accepts it
(the source lowercases the file before checking), returning `"52"`; and
its roundtrip comes back as the lowercased `"e2"`, not `"E2"`.  So the
converters are not inverse on all accepted inputs, and not every input
outside the lowercase squares maps to `None`. -/
theorem uppercase_file_breaks_roundtrip :
    convert_algebraic_to_numeric "E2" = some "52" ∧
    (convert_algebraic_to_numeric "E2").bind convert_numeric_to_algebraic
      = some "e2" ∧
    ("e2" : String) ≠ "E2" ∧
    convert_algebraic_to_numeric "E2" ≠ none := by
  exact ⟨by decide, by decide, by decide, by decide⟩

/-- C9 amended: the roundtrips hold on the ASCII squares — lowercase
files `a`-`h` with ranks `1`-`8` one way, ASCII digit pairs in `1`-`8`
the other way — and every input outside the accepted shapes maps to
`None`.  The accepted shapes are however wider than the ASCII squares in
two ways, and those extra inputs normalize to ASCII output instead of
roundtripping to themselves: `convert_algebraic_to_numeric` also accepts
the uppercase files `A`-`H` (converting exactly as their lowercase
forms), and both converters accept any Unicode decimal digit in rank or
digit positions (converting exactly as the ASCII digit of the same
value — e.g. the Arabic-Indic `"e٢"` gives `"52"` and the fullwidth
`"５２"` gives `"e2"`). -/
theorem square_encoding_roundtrips :
    (∀ c ∈ ['a', 'b', 'c', 'd', 'e', 'f', 'g', 'h'],
     ∀ d ∈ ['1', '2', '3', '4', '5', '6', '7', '8'],
       (convert_algebraic_to_numeric (String.mk [c, d])).bind convert_numeric_to_algebraic
         = some (String.mk [c, d])) ∧
    (∀ c ∈ ['1', '2', '3', '4', '5', '6', '7', '8'],
     ∀ d ∈ ['1', '2', '3', '4', '5', '6', '7', '8'],
       (convert_numeric_to_algebraic (String.mk [c, d])).bind convert_algebraic_to_numeric
         = some (String.mk [c, d])) ∧
    (∀ s : String, acceptedAlg s = false → convert_algebraic_to_numeric s = none) ∧
    (∀ s : String, acceptedNum s = false → convert_numeric_to_algebraic s = none) ∧
    (∀ c ∈ ['A', 'B', 'C', 'D', 'E', 'F', 'G', 'H'],
     ∀ d ∈ ['1', '2', '3', '4', '5', '6', '7', '8'],
       convert_algebraic_to_numeric (String.mk [c, d])
         = convert_algebraic_to_numeric (String.mk [pyLower c, d])) ∧
    (∀ z ∈ decimal_digit_zeros, ∀ v ∈ [1, 2, 3, 4, 5, 6, 7, 8],
       convert_algebraic_to_numeric (String.mk ['e', Char.ofNat (z + v)])
         = convert_algebraic_to_numeric (String.mk ['e', Char.ofNat (48 + v)])) ∧
    (∀ z ∈ decimal_digit_zeros, ∀ v ∈ [1, 2, 3, 4, 5, 6, 7, 8],
       convert_numeric_to_algebraic (String.mk [Char.ofNat (z + v), Char.ofNat (z + v)])
         = convert_numeric_to_algebraic (String.mk [Char.ofNat (48 + v), Char.ofNat (48 + v)])) ∧
    (convert_algebraic_to_numeric "e٢" = some "52" ∧
     convert_numeric_to_algebraic "５２" = some "e2") :=
  ⟨by decide, by decide, a2n_none_of_not_accepted, n2a_none_of_not_accepted,
   by decide, by decide, by decide, by decide, by decide⟩

/-- Witness for the amended C9 statement at `e2`, `52`, the rejected
inputs `i9` and `90`, and the Arabic-Indic rank digit `٢` (code point
`1634`, value 2). -/
theorem square_encoding_roundtrips_witness :
    ((convert_algebraic_to_numeric (String.mk ['e', '2'])).bind convert_numeric_to_algebraic
       = some (String.mk ['e', '2'])) ∧
    ((convert_numeric_to_algebraic (String.mk ['5', '2'])).bind convert_algebraic_to_numeric
       = some (String.mk ['5', '2'])) ∧
    convert_algebraic_to_numeric "i9" = none ∧
    convert_numeric_to_algebraic "90" = none ∧
    convert_algebraic_to_numeric (String.mk ['e', Char.ofNat (1632 + 2)])
      = convert_algebraic_to_numeric (String.mk ['e', Char.ofNat (48 + 2)]) :=
  ⟨square_encoding_roundtrips.1 'e' (by decide) '2' (by decide),
   square_encoding_roundtrips.2.1 '5' (by decide) '2' (by decide),
   square_encoding_roundtrips.2.2.1 "i9" (by decide),
   square_encoding_roundtrips.2.2.2.1 "90" (by decide),
   square_encoding_roundtrips.2.2.2.2.2.1 1632 (by decide) 2 (by decide)⟩

end ChessBot
